import Mathlib

/-!
Shallow embedding of the real-time voice-session core of `src/App.tsx`
(session state machine, playback scheduler, capture path, transcript
accumulation) together with the PCM codec contract of the missing
`utils/audio.ts` module, modelled from the specification.

Times (device clock, playback cursor, buffer durations) are rationals;
audio samples are rationals; the base64 layer is elided and wire payloads
are byte lists.
-/

namespace Itero

/-- `ConnectionStatus` from `src/types.ts`. -/
inductive ConnectionStatus where
  | DISCONNECTED
  | CONNECTING
  | CONNECTED
  | ERROR
deriving DecidableEq, Repr

/-- The `role` field of a `Message` (`'user' | 'model'`). -/
inductive Role where
  | user
  | model
deriving DecidableEq, Repr

/-- `Message` from `src/types.ts`: one appended transcript turn.
The `timestamp : Date` is modelled as a natural number. -/
structure Message where
  role : Role
  text : String
  timestamp : Nat
deriving DecidableEq, Repr

/-- One scheduled output buffer: the `AudioBufferSourceNode` registered in
`sourcesRef`, remembered with the time passed to `source.start` and the
decoded buffer's duration. -/
structure PlaybackUnit where
  scheduledStart : ℚ
  duration : ℚ
deriving DecidableEq, Repr

/-- The mutable state of the `App` component: the six `useState` values and
the seven `useRef` handles of `src/App.tsx` lines 42-55.  Opaque resource
handles (`MediaStream`, `AudioContext`, `GainNode`, the live session) are
modelled as `Option Unit`: `some ()` while held, `none` after release, so
the null checks of the source become `Option` matches. -/
structure AppState where
  status : ConnectionStatus
  errorDetail : Option String
  transcriptionHistory : List Message
  isMuted : Bool
  currentInputText : String
  currentOutputText : String
  inputAudioContext : Option Unit
  outputAudioContext : Option Unit
  outputNode : Option Unit
  nextStartTime : ℚ
  sources : List PlaybackUnit
  session : Option Unit
  stream : Option Unit
deriving DecidableEq, Repr

/-- JS `!text.trim()` — true exactly when every character of `text` is
whitespace (in particular when `text` is empty). -/
def isBlank (text : String) : Bool :=
  text.toList.all Char.isWhitespace

/-- `appendToHistory` (App.tsx lines 57-60): guard `if (!text.trim()) return;`
then push `{ role, text, timestamp: new Date() }` onto the history. -/
def appendToHistory (role : Role) (text : String) (now : Nat) (s : AppState) : AppState :=
  if isBlank text then s
  else { s with transcriptionHistory := s.transcriptionHistory ++ [⟨role, text, now⟩] }

/-- `stopSession` (App.tsx lines 62-85): close and null each handle that is
present, stop and clear all active sources, set status `DISCONNECTED`, clear
both partial-text accumulators.  (It does not touch `errorDetail`,
`outputNodeRef`, `nextStartTimeRef` or the transcript history.) -/
def stopSession (s : AppState) : AppState :=
  { s with
    session := none
    stream := none
    inputAudioContext := none
    outputAudioContext := none
    sources := []
    status := ConnectionStatus.DISCONNECTED
    currentInputText := ""
    currentOutputText := "" }

/-- The audio branch of `onmessage` (App.tsx lines 164-174), for a decoded
inbound buffer of duration `dur` while the output device clock reads
`clock`:
`nextStartTimeRef.current = Math.max(nextStartTimeRef.current, ctx.currentTime)`,
`source.start(nextStartTimeRef.current)`,
`nextStartTimeRef.current += audioBuffer.duration`, and the source is added
to `sourcesRef`. -/
def scheduleChunk (clock dur : ℚ) (s : AppState) : AppState :=
  let start := max s.nextStartTime clock
  { s with
    nextStartTime := start + dur
    sources := s.sources ++ [⟨start, dur⟩] }

/-- The `turnComplete` branch of `onmessage` (App.tsx lines 184-187):
`setCurrentInputText(text => { if (text) appendToHistory('user', text); return ''; })`
and the same for the output accumulator with role `'model'`. -/
def handleTurnComplete (now : Nat) (s : AppState) : AppState :=
  let s1 :=
    { (if s.currentInputText ≠ "" then appendToHistory Role.user s.currentInputText now s else s)
      with currentInputText := "" }
  { (if s1.currentOutputText ≠ "" then appendToHistory Role.model s1.currentOutputText now s1 else s1)
    with currentOutputText := "" }

/-- The `interrupted` branch of `onmessage` (App.tsx lines 189-193):
stop every source, clear `sourcesRef`, reset `nextStartTimeRef` to 0. -/
def handleInterrupted (s : AppState) : AppState :=
  { s with sources := [], nextStartTime := 0 }

/-- A pushed `LiveServerMessage` as `onmessage` inspects it: an optional
inbound audio chunk (already decoded; only its buffer duration matters to
the scheduler), optional input/output transcription fragments, and the
`turnComplete` / `interrupted` flags. -/
structure ServerMessage where
  audio : Option ℚ
  inputTranscription : Option String
  outputTranscription : Option String
  turnComplete : Bool
  interrupted : Bool
deriving DecidableEq, Repr

/-- `onmessage` (App.tsx lines 162-194), in source order: audio scheduling
(guarded by `base64Audio && outputAudioContextRef.current`), transcription
accumulation, turn completion, interruption.  `clock` is the output
device's `ctx.currentTime` at arrival; `now` the wall-clock timestamp used
for appended turns. -/
def onmessage (clock : ℚ) (now : Nat) (msg : ServerMessage) (s : AppState) : AppState :=
  let s1 := match msg.audio with
    | some dur => if s.outputAudioContext.isSome then scheduleChunk clock dur s else s
    | none => s
  let s2 := match msg.inputTranscription with
    | some t => { s1 with currentInputText := s1.currentInputText ++ t }
    | none => s1
  let s3 := match msg.outputTranscription with
    | some t => { s2 with currentOutputText := s2.currentOutputText ++ t }
    | none => s2
  let s4 := if msg.turnComplete then handleTurnComplete now s3 else s3
  if msg.interrupted then handleInterrupted s4 else s4

/-- The human-readable detail set by the transport error callback. -/
def transportErrMsg : String :=
  "The AI connection failed. This might be a network or key issue."

/-- `onerror` (App.tsx lines 195-200): set the error detail, set status
`ERROR`, then call `stopSession()`. -/
def onerror (s : AppState) : AppState :=
  stopSession { s with errorDetail := some transportErrMsg, status := ConnectionStatus.ERROR }

/-- `onclose` (App.tsx lines 201-204): `setStatus(DISCONNECTED)` only. -/
def onclose (s : AppState) : AppState :=
  { s with status := ConnectionStatus.DISCONNECTED }

/-- `toggleMute` (App.tsx line 224): `setIsMuted(!isMuted)`. -/
def toggleMute (s : AppState) : AppState :=
  { s with isMuted := !s.isMuted }

/-! ### PCM codec

Modelled from the spec: `src/App.tsx` imports `decode`, `encode`,
`decodeAudioData`, `createBlob` from `utils/audio.ts`, a file absent from
the repository snapshot.  Section 4.1 of the specification gives their
contract; each definition below carries the sentence it follows. -/

/-- Modelled from the spec (missing `utils/audio.ts`): the clamp of a float
sample `s` to `[-1,1]` applied by `encode`. -/
def clampSample (s : ℚ) : ℚ :=
  max (-1) (min 1 s)

/-- Modelled from the spec (missing `utils/audio.ts`): "converts each sample
`s` (float, clamped to [-1,1]) to a 16-bit signed integer via
`round(s < 0 ? s*32768 : s*32767)`". -/
def encodeSample (s : ℚ) : ℤ :=
  if clampSample s < 0 then round (clampSample s * 32768) else round (clampSample s * 32767)

/-- Modelled from the spec (missing `utils/audio.ts`): "packs little-endian" —
the two bytes of a 16-bit signed integer, two's complement, low byte first. -/
def int16ToLEBytes (v : ℤ) : List Nat :=
  [(v % 65536).toNat % 256, (v % 65536).toNat / 256]

/-- Modelled from the spec (missing `utils/audio.ts`): `encode` applied to a
whole frame — each sample quantized to int16 and packed little-endian.  The
base64 text layer and the `audio/pcm;rate=16000` tag, being invertible
framing, are elided: the wire payload is the byte sequence itself. -/
def encodeFrame (frame : List ℚ) : List Nat :=
  frame.flatMap fun s => int16ToLEBytes (encodeSample s)

/-- Modelled from the spec (missing `utils/audio.ts`): the inverse of the
little-endian int16 packing used by `decode`. -/
def leBytesToInt16 (b0 b1 : Nat) : ℤ :=
  if (b0 + 256 * b1 : ℤ) < 32768 then (b0 + 256 * b1 : ℤ)
  else (b0 + 256 * b1 : ℤ) - 65536

/-- Modelled from the spec (missing `utils/audio.ts`): "`decode(blob: bytes)
-> sequence<int16>` is the exact inverse byte-unpacking (no rounding
needed)"; a trailing odd byte is ignored.  Degenerate (empty) input yields
the empty sequence, not an error. -/
def decodeBytes : List Nat → List ℤ
  | b0 :: b1 :: rest => leBytesToInt16 b0 b1 :: decodeBytes rest
  | _ => []

/-- Modelled from the spec (missing `utils/audio.ts`): the per-sample
normalization of `decodeAudioData` — back "to float range [-1,1] via
division by 32768". -/
def decodeSample (v : ℤ) : ℚ :=
  (v : ℚ) / 32768

/-- Modelled from the spec (missing `utils/audio.ts`): `createBlob` encodes
a capture frame via the codec for outbound transmission. -/
def createBlob (frame : List ℚ) : List Nat :=
  encodeFrame frame

/-! ### Capture path and session start -/

/-- `scriptProcessor.onaudioprocess` (App.tsx lines 150-157), observed as
the list of `sendRealtimeInput` invocations one capture frame produces:
`if (isMuted) return;` then a single fire-and-forget send of
`createBlob(inputData)`.  The `isMuted` the guard reads is the binding the
handler closed over when it was created inside `onopen` — the component
state value of the render in which `startSession` ran; it is not a ref and
the handler is never re-registered, so the handler's behavior depends on
that captured value alone (and on nothing else: in particular it performs
no connection-status check). -/
def captureSends (capturedMuted : Bool) (frame : List ℚ) : List (List Nat) :=
  if capturedMuted then [] else [createBlob frame]

/-- A live capture pipeline: the component state together with the mute
value the registered `onaudioprocess` closure captured at registration. -/
structure CaptureSession where
  appState : AppState
  capturedMuted : Bool
deriving DecidableEq, Repr

/-- `onopen` (App.tsx lines 143-161): the capture handler is registered
once, closing over the `isMuted` state value current at that render. -/
def openCapture (s : AppState) : CaptureSession :=
  ⟨s, s.isMuted⟩

/-- `toggleMute` acting on a live capture session: the component state
flips, but the already-registered handler keeps the value it captured. -/
def sessionToggleMute (cs : CaptureSession) : CaptureSession :=
  ⟨toggleMute cs.appState, cs.capturedMuted⟩

/-- One capture frame delivered to the registered handler of a live
session. -/
def frameSends (cs : CaptureSession) (frame : List ℚ) : List (List Nat) :=
  captureSends cs.capturedMuted frame

/-- The environment outcomes `startSession` can encounter, in the order the
source consults them. -/
structure StartEnv where
  hasMediaDevices : Bool
  micGranted : Bool
  hasApiKey : Bool
deriving DecidableEq, Repr

/-- The externally observable steps of `startSession`. -/
inductive StartEvent where
  | capabilityCheck
  | micPermissionRequest
  | contextSetup
  | apiKeyCheck
  | transportConnect
  | startFailed (detail : String)
deriving DecidableEq, Repr

/-- The detail thrown at App.tsx line 95 when the browser lacks capture
support. -/
def noMediaDevicesMsg : String :=
  "Browser lacks microphone support or is not in a secure (HTTPS) context."

/-- The detail chosen at App.tsx line 214 when microphone permission is
refused. -/
def micBlockedMsg : String :=
  "Microphone access was blocked. Please enable it in your browser settings."

/-- The detail thrown at App.tsx line 125 when `process.env.API_KEY` is
absent. -/
def apiKeyMissingMsg : String :=
  "System API Key is missing. Please contact administrator."

/-- `startSession` (App.tsx lines 87-222) as its sequence of observable
steps: (1) browser capability check (line 94); (2) `getUserMedia`
microphone permission request (line 100); (3) audio-context setup and
resume (lines 112-121); (4) `process.env.API_KEY` presence check
(line 124); (5) transport connect.  A thrown failure is caught at lines
209-221 and mapped to a detail message. -/
def startTrace (env : StartEnv) : List StartEvent :=
  if !env.hasMediaDevices then
    [StartEvent.capabilityCheck, StartEvent.startFailed noMediaDevicesMsg]
  else if !env.micGranted then
    [StartEvent.capabilityCheck, StartEvent.micPermissionRequest,
     StartEvent.startFailed micBlockedMsg]
  else if !env.hasApiKey then
    [StartEvent.capabilityCheck, StartEvent.micPermissionRequest, StartEvent.contextSetup,
     StartEvent.apiKeyCheck, StartEvent.startFailed apiKeyMissingMsg]
  else
    [StartEvent.capabilityCheck, StartEvent.micPermissionRequest, StartEvent.contextSetup,
     StartEvent.apiKeyCheck, StartEvent.transportConnect]

/-! ### Playback-run helpers -/

/-- A message carrying only an inbound audio chunk of duration `dur`. -/
def audioMsg (dur : ℚ) : ServerMessage :=
  ⟨some dur, none, none, false, false⟩

/-- A message carrying only the `interrupted` flag. -/
def interruptMsg : ServerMessage :=
  ⟨none, none, none, false, true⟩

/-- Deliver a sequence of audio-only messages through `onmessage`; each
arrival is a pair `(clock, dur)` of the device clock at arrival and the
decoded buffer's duration. -/
def runSchedule (s : AppState) : List (ℚ × ℚ) → AppState
  | [] => s
  | (c, d) :: rest => runSchedule (onmessage c 0 (audioMsg d) s) rest

/-- Back-to-back chaining between two consecutive playback units. -/
def chainRel (u v : PlaybackUnit) : Prop :=
  v.scheduledStart = u.scheduledStart + u.duration

instance : DecidableRel chainRel := fun u v =>
  inferInstanceAs (Decidable (v.scheduledStart = u.scheduledStart + u.duration))

/-- Every listed arrival reaches the scheduler no later than the playback
cursor it will meet (no buffer underrun): starting from cursor position
`cursor`, each chunk's arrival clock is at most the cursor, which then
advances by that chunk's duration. -/
def timelyFrom : ℚ → List (ℚ × ℚ) → Bool
  | _, [] => true
  | cursor, (c, d) :: rest => decide (c ≤ cursor) && timelyFrom (cursor + d) rest

/-- A session state in which the transport is connected and every device
handle is live: the state reached after a successful `startSession` and
`onopen`, before any message has arrived. -/
def streamState : AppState :=
  { status := ConnectionStatus.CONNECTED
    errorDetail := none
    transcriptionHistory := []
    isMuted := false
    currentInputText := ""
    currentOutputText := ""
    inputAudioContext := some ()
    outputAudioContext := some ()
    outputNode := some ()
    nextStartTime := 0
    sources := []
    session := some ()
    stream := some () }

/-- A connected state with one playback unit in flight and the cursor
ahead of the clock. -/
def busyState : AppState :=
  { streamState with sources := [⟨0, 1⟩], nextStartTime := 7 }

/-- A state after the transport closed remotely: disconnected, unmuted,
device handles still live (`onclose` performs no teardown). -/
def closedState : AppState :=
  { streamState with status := ConnectionStatus.DISCONNECTED }

/-- A message carrying only the `turnComplete` flag. -/
def turnCompleteMsg : ServerMessage :=
  ⟨none, none, none, true, false⟩

/-- The playback units appended by a run of audio arrivals starting from
cursor position `cursor`: each starts at `max cursor clock` and advances
the cursor by its duration. -/
def runUnits : ℚ → List (ℚ × ℚ) → List PlaybackUnit
  | _, [] => []
  | cursor, (c, d) :: rest => ⟨max cursor c, d⟩ :: runUnits (max cursor c + d) rest

/-! ### Helper lemmas -/

theorem isBlank_empty : isBlank "" = true := rfl

theorem onmessage_audio (c : ℚ) (n : Nat) (d : ℚ) (s : AppState)
    (h : s.outputAudioContext.isSome = true) :
    onmessage c n (audioMsg d) s = scheduleChunk c d s := by
  simp [onmessage, audioMsg, h]

theorem onmessage_interrupt (c : ℚ) (n : Nat) (s : AppState) :
    onmessage c n interruptMsg s = handleInterrupted s := by
  simp [onmessage, interruptMsg]

theorem scheduleChunk_outputCtx (c d : ℚ) (s : AppState) :
    (scheduleChunk c d s).outputAudioContext = s.outputAudioContext := rfl

theorem runSchedule_sources (l : List (ℚ × ℚ)) (s : AppState)
    (h : s.outputAudioContext.isSome = true) :
    (runSchedule s l).sources = s.sources ++ runUnits s.nextStartTime l := by
  induction l generalizing s with
  | nil => simp [runSchedule, runUnits]
  | cons p rest ih =>
    obtain ⟨c, d⟩ := p
    rw [runSchedule, onmessage_audio c 0 d s h,
      ih (scheduleChunk c d s) (by rw [scheduleChunk_outputCtx]; exact h)]
    simp [scheduleChunk, runUnits]

theorem chain_runUnits (l : List (ℚ × ℚ)) (u : PlaybackUnit)
    (h : timelyFrom (u.scheduledStart + u.duration) l = true) :
    List.Chain' chainRel (u :: runUnits (u.scheduledStart + u.duration) l) := by
  induction l generalizing u with
  | nil => simp [runUnits]
  | cons p rest ih =>
    obtain ⟨c, d⟩ := p
    rw [timelyFrom, Bool.and_eq_true, decide_eq_true_eq] at h
    rw [runUnits, max_eq_left h.1, List.chain'_cons]
    refine ⟨rfl, ?_⟩
    exact ih ⟨u.scheduledStart + u.duration, d⟩ h.2

theorem handleTurnComplete_eq (n : Nat) (s : AppState) :
    handleTurnComplete n s =
      { s with
        currentInputText := ""
        currentOutputText := ""
        transcriptionHistory := s.transcriptionHistory
          ++ (if isBlank s.currentInputText then [] else [⟨Role.user, s.currentInputText, n⟩])
          ++ (if isBlank s.currentOutputText then [] else [⟨Role.model, s.currentOutputText, n⟩]) } := by
  unfold handleTurnComplete appendToHistory
  by_cases hi : s.currentInputText = "" <;> by_cases ho : s.currentOutputText = "" <;>
    simp [hi, ho, isBlank_empty] <;> split_ifs <;> simp_all

theorem clampSample_mem (s : ℚ) : -1 ≤ clampSample s ∧ clampSample s ≤ 1 := by
  unfold clampSample
  constructor
  · exact le_max_left _ _
  · exact max_le (by norm_num) (min_le_left _ _)

theorem clampSample_eq_self (s : ℚ) (h1 : -1 ≤ s) (h2 : s ≤ 1) : clampSample s = s := by
  rw [clampSample, min_eq_right h2, max_eq_right h1]

theorem encodeSample_mem (s : ℚ) : -32768 ≤ encodeSample s ∧ encodeSample s ≤ 32767 := by
  obtain ⟨hc1, hc2⟩ := clampSample_mem s
  unfold encodeSample
  split_ifs with hneg
  · constructor
    · have hlow := sub_half_lt_round (clampSample s * 32768)
      have : (-32769 : ℚ) < (round (clampSample s * 32768) : ℚ) := by linarith
      have : (-32769 : ℤ) < round (clampSample s * 32768) := by exact_mod_cast this
      omega
    · have hup := round_le_add_half (clampSample s * 32768)
      have : (round (clampSample s * 32768) : ℚ) < 1 := by nlinarith
      have : round (clampSample s * 32768) < (1 : ℤ) := by exact_mod_cast this
      omega
  · push_neg at hneg
    constructor
    · have hlow := sub_half_lt_round (clampSample s * 32767)
      have : (-1 : ℚ) < (round (clampSample s * 32767) : ℚ) := by nlinarith
      have : (-1 : ℤ) < round (clampSample s * 32767) := by exact_mod_cast this
      omega
    · have hup := round_le_add_half (clampSample s * 32767)
      have : (round (clampSample s * 32767) : ℚ) < 32768 := by nlinarith
      have : round (clampSample s * 32767) < (32768 : ℤ) := by exact_mod_cast this
      omega

theorem leBytes_roundTrip (v : ℤ) (h1 : -32768 ≤ v) (h2 : v ≤ 32767) :
    leBytesToInt16 ((v % 65536).toNat % 256) ((v % 65536).toNat / 256) = v := by
  unfold leBytesToInt16
  split_ifs <;> push_cast <;> omega

theorem decode_encode_frame (frame : List ℚ) :
    decodeBytes (encodeFrame frame) = frame.map encodeSample := by
  induction frame with
  | nil => rfl
  | cons s rest ih =>
    obtain ⟨h1, h2⟩ := encodeSample_mem s
    have hsplit : encodeFrame (s :: rest) =
        (encodeSample s % 65536).toNat % 256 ::
          (encodeSample s % 65536).toNat / 256 :: encodeFrame rest := by
      simp [encodeFrame, int16ToLEBytes]
    rw [hsplit, decodeBytes, leBytes_roundTrip (encodeSample s) h1 h2, ih, List.map_cons]

theorem decodeSample_close (s : ℚ) (h1 : -1 ≤ s) (h2 : s ≤ 1) :
    |decodeSample (encodeSample s) - s| ≤ 3 / 65536 := by
  rw [decodeSample, encodeSample, clampSample_eq_self s h1 h2]
  split_ifs with hneg
  · have hb := abs_sub_round (s * 32768)
    rw [abs_le] at hb ⊢
    constructor <;> · simp only [div_le_iff₀, le_div_iff₀, neg_le, neg_div] at *; nlinarith
  · have hb := abs_sub_round (s * 32767)
    push_neg at hneg
    rw [abs_le] at hb ⊢
    constructor <;> · simp only [div_le_iff₀, le_div_iff₀, neg_le, neg_div] at *; nlinarith

/-! ### Claim theorems -/

/-- C1 (amended): the scheduler computes each unit's `scheduledStart` as
`max(nextPlaybackCursor, outputDeviceClock)` and advances the cursor by the
unit's duration; consequently, starting from cursor 0, the first unit
starts at `max(0, deviceClockAtArrival)` and — provided every later chunk
arrives no later than the cursor it meets (no underrun) — each subsequent
unit's `scheduledStart` equals the previous unit's
`scheduledStart + duration`. -/
theorem playback_back_to_back (c0 d0 : ℚ) (rest : List (ℚ × ℚ))
    (h : timelyFrom (max 0 c0 + d0) rest = true) :
    (runSchedule streamState ((c0, d0) :: rest)).sources.head? = some ⟨max 0 c0, d0⟩ ∧
    List.Chain' chainRel (runSchedule streamState ((c0, d0) :: rest)).sources := by
  have hs : (runSchedule streamState ((c0, d0) :: rest)).sources =
      runUnits 0 ((c0, d0) :: rest) := by
    rw [runSchedule_sources ((c0, d0) :: rest) streamState rfl]
    rfl
  rw [hs, runUnits]
  refine ⟨rfl, ?_⟩
  have := chain_runUnits rest ⟨max 0 c0, d0⟩ h
  exact this

/-- Witness for C1's theorem at the arrivals (clock 0, dur 1) then
(clock 0, dur 2). -/
theorem playback_back_to_back_witness :
    timelyFrom (max 0 0 + 1) [((0 : ℚ), (2 : ℚ))] = true ∧
    ((runSchedule streamState [(0, 1), (0, 2)]).sources.head? = some ⟨max 0 0, 1⟩ ∧
     List.Chain' chainRel (runSchedule streamState [(0, 1), (0, 2)]).sources) :=
  ⟨by norm_num [timelyFrom], playback_back_to_back 0 1 [(0, 2)] (by norm_num [timelyFrom])⟩

/-- C1 counterexample: a chunk arriving after the cursor has been passed by
the device clock (first chunk at clock 0 with duration 1, second at clock
5) starts at 5, not at the previous unit's start + duration = 1, so the
unconditional back-to-back claim fails. -/
theorem playback_late_chunk_breaks_chain :
    (runSchedule streamState [(0, 1), (5, 1)]).sources = [⟨0, 1⟩, ⟨5, 1⟩] ∧
    ¬ List.Chain' chainRel (runSchedule streamState [(0, 1), (5, 1)]).sources := by
  have hs : (runSchedule streamState [(0, 1), (5, 1)]).sources = [⟨0, 1⟩, ⟨5, 1⟩] := by
    norm_num [runSchedule, onmessage, audioMsg, scheduleChunk, streamState]
  refine ⟨hs, ?_⟩
  rw [hs]
  norm_num [List.chain'_cons, chainRel]

/-- C2: the `interrupted` signal empties the active playback set and resets
the cursor to 0, and an audio chunk delivered immediately afterwards with
device clock `c` is scheduled at `max 0 c`, not at the pre-interruption
cursor. -/
theorem interruption_resets (s : AppState) (c0 c d : ℚ) (n : Nat)
    (h : s.outputAudioContext.isSome = true) :
    (onmessage c0 n interruptMsg s).sources = [] ∧
    (onmessage c0 n interruptMsg s).nextStartTime = 0 ∧
    (onmessage c n (audioMsg d) (onmessage c0 n interruptMsg s)).sources = [⟨max 0 c, d⟩] := by
  rw [onmessage_interrupt]
  have h2 : (handleInterrupted s).outputAudioContext.isSome = true := h
  rw [onmessage_audio c n d _ h2]
  exact ⟨rfl, rfl, rfl⟩

/-- Witness for C2's theorem: interruption of a busy session (cursor at 7,
one active unit), then a chunk at clock 3. -/
theorem interruption_resets_witness :
    busyState.outputAudioContext.isSome = true ∧
    ((onmessage 2 5 interruptMsg busyState).sources = [] ∧
     (onmessage 2 5 interruptMsg busyState).nextStartTime = 0 ∧
     (onmessage 3 5 (audioMsg (1/2)) (onmessage 2 5 interruptMsg busyState)).sources =
       [⟨max 0 3, 1/2⟩]) :=
  ⟨rfl, interruption_resets busyState 2 3 (1/2) 5 rfl⟩

/-- C3 (code bug): the transport error handler sets `ERROR` and the error
detail, but then calls `stopSession`, whose `setStatus(DISCONNECTED)` runs
last — so the settled, observable status after the handler is
`DISCONNECTED`, not `ERROR`, for every starting state (teardown itself
does run and the detail is populated). -/
theorem onerror_ends_disconnected (s : AppState) :
    (onerror s).status = ConnectionStatus.DISCONNECTED ∧
    (onerror s).status ≠ ConnectionStatus.ERROR ∧
    (onerror s).errorDetail = some transportErrMsg ∧
    (onerror s).session = none ∧
    (onerror s).stream = none ∧
    (onerror s).inputAudioContext = none ∧
    (onerror s).outputAudioContext = none ∧
    (onerror s).sources = [] := by
  refine ⟨rfl, ?_, rfl, rfl, rfl, rfl, rfl, rfl⟩
  intro hcontra
  exact ConnectionStatus.noConfusion hcontra

/-- C4: a turn-complete message clears both accumulators; it appends one
turn per non-blank accumulator (role `user` for input, `model` for output,
with the accumulated text) and none for a blank accumulator. -/
theorem turn_complete_appends (s : AppState) (c : ℚ) (n : Nat) :
    (onmessage c n turnCompleteMsg s).currentInputText = "" ∧
    (onmessage c n turnCompleteMsg s).currentOutputText = "" ∧
    (onmessage c n turnCompleteMsg s).transcriptionHistory =
      s.transcriptionHistory
        ++ (if isBlank s.currentInputText then [] else [⟨Role.user, s.currentInputText, n⟩])
        ++ (if isBlank s.currentOutputText then [] else [⟨Role.model, s.currentOutputText, n⟩]) := by
  have h : onmessage c n turnCompleteMsg s = handleTurnComplete n s := by
    simp [onmessage, turnCompleteMsg]
  rw [h, handleTurnComplete_eq]
  exact ⟨rfl, rfl, rfl⟩

/-- C5: `stopSession` is idempotent, never fails (it is a total function of
the state), and from any state — including one where `start()` never
completed and some handles were never acquired — it leaves status
`DISCONNECTED` with the transport session, microphone stream, both device
contexts and the active playback set all released. -/
theorem stop_idempotent (s : AppState) :
    stopSession (stopSession s) = stopSession s ∧
    (stopSession s).status = ConnectionStatus.DISCONNECTED ∧
    (stopSession s).session = none ∧
    (stopSession s).stream = none ∧
    (stopSession s).inputAudioContext = none ∧
    (stopSession s).outputAudioContext = none ∧
    (stopSession s).sources = [] :=
  ⟨rfl, rfl, rfl, rfl, rfl, rfl, rfl⟩

/-- C6 (code bug): evaluated at the failing input — a session opened while
`CONNECTED` and unmuted, then `toggleMute`, then a frame.  Before the
toggle a frame produces exactly one send of `createBlob F` (= `encode F`),
as claimed; after the toggle the component state is muted, yet the frame
still produces that same single send, because the registered handler's
guard reads the `isMuted` value captured at session start, never the
current state — so the claimed zero post-toggle sends do not occur.  The
handler also performs no connection-status check: in a disconnected,
unmuted session (remote close does no teardown) a frame still sends. -/
theorem mute_toggle_does_not_stop_sends :
    (openCapture streamState).appState.status = ConnectionStatus.CONNECTED ∧
    (openCapture streamState).appState.isMuted = false ∧
    frameSends (openCapture streamState) [1/2] = [createBlob [1/2]] ∧
    (sessionToggleMute (openCapture streamState)).appState.isMuted = true ∧
    frameSends (sessionToggleMute (openCapture streamState)) [1/2] = [createBlob [1/2]] ∧
    frameSends (sessionToggleMute (openCapture streamState)) [1/2] ≠ [] ∧
    (openCapture closedState).appState.status ≠ ConnectionStatus.CONNECTED ∧
    frameSends (openCapture closedState) [0] = [createBlob [0]] := by
  refine ⟨rfl, rfl, rfl, rfl, rfl, ?_, ?_, rfl⟩
  · intro hcontra
    simp [frameSends, captureSends, sessionToggleMute, openCapture, streamState] at hcontra
  · intro hcontra
    exact ConnectionStatus.noConfusion hcontra

/-- C7 counterexample: with the credential absent but capture support and
permission available, `startSession` requests microphone permission — the
missing-key failure is not surfaced before device/permission acquisition. -/
theorem mic_prompted_despite_missing_key :
    (⟨true, true, false⟩ : StartEnv).hasApiKey = false ∧
    StartEvent.micPermissionRequest ∈ startTrace ⟨true, true, false⟩ := by
  exact ⟨rfl, by decide⟩

/-- C7 (amended): the missing-credential check runs only after the
capability check, the microphone permission request and device-context
setup; with the credential absent the user is prompted for microphone
access and the session then fails with the missing-key detail. -/
theorem missing_key_after_mic_acquisition (env : StartEnv)
    (h1 : env.hasMediaDevices = true) (h2 : env.micGranted = true)
    (h3 : env.hasApiKey = false) :
    startTrace env =
      [StartEvent.capabilityCheck, StartEvent.micPermissionRequest, StartEvent.contextSetup,
       StartEvent.apiKeyCheck, StartEvent.startFailed apiKeyMissingMsg] := by
  simp [startTrace, h1, h2, h3]

/-- Witness for C7's amended theorem at the concrete environment with a
missing key. -/
theorem missing_key_after_mic_acquisition_witness :
    (⟨true, true, false⟩ : StartEnv).hasMediaDevices = true ∧
    (⟨true, true, false⟩ : StartEnv).micGranted = true ∧
    (⟨true, true, false⟩ : StartEnv).hasApiKey = false ∧
    startTrace ⟨true, true, false⟩ =
      [StartEvent.capabilityCheck, StartEvent.micPermissionRequest, StartEvent.contextSetup,
       StartEvent.apiKeyCheck, StartEvent.startFailed apiKeyMissingMsg] :=
  ⟨rfl, rfl, rfl, missing_key_after_mic_acquisition ⟨true, true, false⟩ rfl rfl rfl⟩

/-- C8 (amended): for every frame of samples in `[-1,1]`, decoding the
encoded wire bytes reproduces each sample to within `3/65536` absolute
error (the bound `1/32768` of the original claim is exceeded by some
samples; see the counterexample). -/
theorem codec_round_trip (frame : List ℚ) (hb : ∀ s ∈ frame, -1 ≤ s ∧ s ≤ 1) :
    List.Forall₂ (fun s v => |decodeSample v - s| ≤ 3 / 65536) frame
      (decodeBytes (encodeFrame frame)) := by
  rw [decode_encode_frame]
  induction frame with
  | nil => exact List.Forall₂.nil
  | cons s rest ih =>
    rw [List.map_cons]
    refine List.Forall₂.cons ?_ (ih ?_)
    · exact decodeSample_close s (hb s (by simp)).1 (hb s (by simp)).2
    · intro x hx
      exact hb x (by simp [hx])

/-- Witness for C8's theorem at the frame `[0, 1, -1, 1/2]`. -/
theorem codec_round_trip_witness :
    (∀ s ∈ [(0 : ℚ), 1, -1, 1/2], -1 ≤ s ∧ s ≤ 1) ∧
    List.Forall₂ (fun s v => |decodeSample v - s| ≤ 3 / 65536) [(0 : ℚ), 1, -1, 1/2]
      (decodeBytes (encodeFrame [(0 : ℚ), 1, -1, 1/2])) :=
  ⟨by norm_num, codec_round_trip [(0 : ℚ), 1, -1, 1/2] (by norm_num)⟩

/-- C8 counterexample: the sample `3200049/3276700` (≈ 0.9766, within
`[-1,1]`) encodes to int16 value 32000, which decodes to `32000/32768`,
an absolute error strictly greater than the claimed bound `1/32768`. -/
theorem codec_error_exceeds_quantization_bound :
    (-1 ≤ (3200049/3276700 : ℚ) ∧ (3200049/3276700 : ℚ) ≤ 1) ∧
    decodeBytes (encodeFrame [(3200049/3276700 : ℚ)]) = [32000] ∧
    1/32768 < |decodeSample 32000 - (3200049/3276700 : ℚ)| := by
  refine ⟨by norm_num, ?_, ?_⟩
  · rw [encodeFrame]
    norm_num [encodeSample, clampSample, round_eq, int16ToLEBytes, decodeBytes, leBytesToInt16]
  · rw [decodeSample, abs_sub_comm, abs_of_pos] <;> norm_num

/-- C9: the transcript history is append-only — `appendToHistory` and
`onmessage` only ever append a (possibly empty) suffix, and teardown
(`stopSession`, `onerror`), `onclose`, `toggleMute`, chunk scheduling and
interruption leave the history exactly unchanged; teardown clears only the
two partial-text accumulators. -/
theorem history_append_only (s : AppState) (role : Role) (text : String) (n : Nat)
    (c d : ℚ) (msg : ServerMessage) :
    (∃ t, (appendToHistory role text n s).transcriptionHistory = s.transcriptionHistory ++ t) ∧
    (∃ t, (onmessage c n msg s).transcriptionHistory = s.transcriptionHistory ++ t) ∧
    (stopSession s).transcriptionHistory = s.transcriptionHistory ∧
    (onerror s).transcriptionHistory = s.transcriptionHistory ∧
    (onclose s).transcriptionHistory = s.transcriptionHistory ∧
    (toggleMute s).transcriptionHistory = s.transcriptionHistory ∧
    (scheduleChunk c d s).transcriptionHistory = s.transcriptionHistory ∧
    (handleInterrupted s).transcriptionHistory = s.transcriptionHistory ∧
    (stopSession s).currentInputText = "" ∧
    (stopSession s).currentOutputText = "" := by
  refine ⟨?_, ?_, rfl, rfl, rfl, rfl, rfl, rfl, rfl, rfl⟩
  · unfold appendToHistory
    split_ifs
    · exact ⟨[], by simp⟩
    · exact ⟨[⟨role, text, n⟩], rfl⟩
  · rcases msg with ⟨audio, it, ot, tc, ir⟩
    cases audio <;> cases it <;> cases ot <;> cases tc <;> cases ir <;>
      · simp only [onmessage]
        split_ifs <;>
          simp [scheduleChunk, handleInterrupted, handleTurnComplete_eq, List.append_assoc]

/-- C10: the transport close callback sets the status to `DISCONNECTED` and
changes nothing else — stream, device contexts, output node, playback set,
cursor, accumulators, mute flag, error detail and transcript history are
all untouched. -/
theorem close_only_sets_disconnected (s : AppState) :
    (onclose s).status = ConnectionStatus.DISCONNECTED ∧
    (onclose s).errorDetail = s.errorDetail ∧
    (onclose s).transcriptionHistory = s.transcriptionHistory ∧
    (onclose s).isMuted = s.isMuted ∧
    (onclose s).currentInputText = s.currentInputText ∧
    (onclose s).currentOutputText = s.currentOutputText ∧
    (onclose s).inputAudioContext = s.inputAudioContext ∧
    (onclose s).outputAudioContext = s.outputAudioContext ∧
    (onclose s).outputNode = s.outputNode ∧
    (onclose s).nextStartTime = s.nextStartTime ∧
    (onclose s).sources = s.sources ∧
    (onclose s).session = s.session ∧
    (onclose s).stream = s.stream :=
  ⟨rfl, rfl, rfl, rfl, rfl, rfl, rfl, rfl, rfl, rfl, rfl, rfl, rfl⟩

end Itero
